import Mathlib

/-!
Verification of the nearest-node discovery worker (NDN FCH edge worker).

The development shallowly embeds the worker's core: query parsing and
serialization, the node-directory cache, directory-entry parsing, the
timeout-bounded upstream attempt, and the local fallback ranking.

Modelling conventions:
* JS numbers are modelled as exact rationals (ℚ); double rounding is not
  modelled, which is sound for the ordering/equality facts proved here.
* `Number.parseInt(s, 10)` and `Number.parseFloat(s)` are implemented as
  executable Lean parsers over decimal strings (leading whitespace, sign,
  digit / fraction / exponent prefixes; a missing number is `none`,
  standing for NaN).  Overflow to Infinity and non-decimal forms are not
  modelled; through the range checks they behave like NaN anyway.
* Number-to-string formatting (template interpolation of a JS number) is
  kept abstract and passed as a function argument where needed.
* Asynchronous races are embedded by the time at which the platform fetch
  settles: a `FetchEvent` records the settlement (response, network error,
  or hanging forever) together with its time in milliseconds, and the
  timer/abort race is the deterministic function `withTimeout`.
-/

namespace NdnFch

/-! ### JS numeric string primitives -/

/-- Drop leading whitespace characters (the whitespace skipping both JS
number parsers perform). -/
def trimLeftChars : List Char → List Char
  | [] => []
  | c :: cs => if c.isWhitespace then trimLeftChars cs else c :: cs

/-- Value of a digit run read in base 10. -/
def digitsToNat (ds : List Char) : Nat :=
  ds.foldl (fun n c => 10 * n + (c.toNat - 48)) 0

/-- Strip an optional sign, returning whether it was negative. -/
def splitSign : List Char → Bool × List Char
  | '-' :: rest => (true, rest)
  | '+' :: rest => (false, rest)
  | cs => (false, cs)

/-- `Number.parseInt(s, 10)`: skip leading whitespace, optional sign, then
the longest digit run; `none` when no digits are found (NaN).  Overflow of
the double mantissa is not modelled. -/
def jsParseIntDec (s : String) : Option Int :=
  let p := splitSign (trimLeftChars s.data)
  let ds := p.2.takeWhile Char.isDigit
  if ds.isEmpty then none
  else some (if p.1 then -(digitsToNat ds : Int) else (digitsToNat ds : Int))

/-- Exponent suffix of a JS float literal: optional sign and digit run;
an empty digit run contributes nothing (parseFloat keeps the longest valid
front). -/
def jsFloatExpo (cs : List Char) : Int :=
  let p := splitSign cs
  let ds := p.2.takeWhile Char.isDigit
  if ds.isEmpty then 0
  else if p.1 then -(digitsToNat ds : Int) else (digitsToNat ds : Int)

/-- `Number.parseFloat(s)`: longest decimal-literal front of the string
(optional sign, digits, optional fraction, optional exponent), as an exact
rational; `none` when no number can be read (NaN).  Double rounding and the
`Infinity` literal are not modelled. -/
def jsParseFloat (s : String) : Option ℚ :=
  let p := splitSign (trimLeftChars s.data)
  let ip := p.2.takeWhile Char.isDigit
  let cs2 := p.2.drop ip.length
  let fp :=
    match cs2 with
    | '.' :: rest => rest.takeWhile Char.isDigit
    | _ => []
  let cs3 :=
    match cs2 with
    | '.' :: rest => rest.drop fp.length
    | _ => cs2
  if ip.isEmpty ∧ fp.isEmpty then none
  else
    let mant : ℚ := (digitsToNat ip : ℚ) + (digitsToNat fp : ℚ) / ((10 : ℚ) ^ fp.length)
    let signed : ℚ := if p.1 then -mant else mant
    let expo : Int :=
      match cs3 with
      | 'e' :: rest => jsFloatExpo rest
      | 'E' :: rest => jsFloatExpo rest
      | _ => 0
    some (signed * (10 : ℚ) ^ expo)

/-- `arr.slice(0, count[0])` as used on the fallback candidate list: with an
empty `count` the index expression is `undefined` and `slice` keeps the whole
array; a negative bound counts from the end of the array. -/
def jsSliceFirst (count : List Int) (l : List α) : List α :=
  match count with
  | [] => l
  | k :: _ => if k < 0 then l.take (l.length - k.natAbs) else l.take k.toNat

/-! ### Data model -/

/-- One candidate endpoint from the testbed directory (`Router` typedef). -/
structure Router where
  id : String
  position : ℚ × ℚ
  host : String
  udp : Bool
  wss : Bool
deriving DecidableEq

/-- Truthiness of the JS property access `router[c]` on a parsed `Router`
record: the two capability flags read as themselves, the string fields are
truthy when non-empty, the position array is always truthy, and any other key
is `undefined` (prototype-inherited keys are not modelled). -/
def Router.jsProp (r : Router) (c : String) : Bool :=
  if c = "udp" then r.udp
  else if c = "wss" then r.wss
  else if c = "id" then r.id ≠ ""
  else if c = "host" then r.host ≠ ""
  else if c = "position" then true
  else false

/-- Capability flag of a node under a capability NAME, following the spec's
data model: only the named boolean transport capabilities count. -/
def Router.capFlag (r : Router) (c : String) : Bool :=
  if c = "udp" then r.udp
  else if c = "wss" then r.wss
  else false

/-- A raw directory entry, as relevant to `fetchTestbedNodes`: a `none`
position stands for an absent (or otherwise falsy) JSON field. -/
structure RawEntry where
  shortname : String
  realPosition : Option (List ℚ)
  position : Option (List ℚ)
  site : String
  fchEnabled : Bool
  wsTls : Bool
deriving DecidableEq

/-- The normalized per-request query (`Query` class, current variant). -/
structure Query where
  count : List Int
  transport : List String
  ipv4 : Bool
  ipv6 : Bool
  lon : ℚ
  lat : ℚ
  network : Option String
deriving DecidableEq

/-- The inbound request's search parameters: `k`/`cap` are repeated
(`getAll`), the rest are read with `get` (first value or `none`). -/
structure RawParams where
  k : List String
  cap : List String
  ipv4 : Option String
  ipv6 : Option String
  lon : Option String
  lat : Option String
  network : Option String
deriving DecidableEq

/-- Caller-derived context: the `CF-Connecting-IP` header and the
geolocation hints `req.cf.longitude` / `req.cf.latitude`. -/
structure ClientHints where
  ip : Option String
  longitude : ℚ
  latitude : ℚ
deriving DecidableEq

/-- Module-level cache of `testbed.mjs`: the router list and the timestamp of
the last successful fetch (ms since epoch). -/
structure DirState where
  routers : List Router
  lastFetch : Int
deriving DecidableEq

/-- Fate of a `setTimeout` timeout timer at the moment its operation's result
is returned. -/
inductive TimerState where
  /-- No fetch was attempted, so no timer was created. -/
  | notCreated
  /-- `clearTimeout` ran (the awaited call resolved). -/
  | cleared
  /-- The timer elapsed and its abort callback ran. -/
  | fired
  /-- Neither cleared nor fired yet: the timer is still scheduled. -/
  | pending
deriving DecidableEq

/-- How (and when, in ms) the platform fetch settles, were it allowed to run
to completion. -/
inductive FetchEvent where
  /-- A response with HTTP-level success flag `ok`, headers and body text. -/
  | response (ok : Bool) (contentType body : String) (t : Nat)
  /-- A network-level failure. -/
  | netError (t : Nat)
  /-- The call never settles on its own. -/
  | hang
deriving DecidableEq

/-- Result of racing the fetch against the timeout timer. -/
inductive RaceResult where
  | fulfilled (ok : Bool) (contentType body : String)
  | netFailed
  | timedOut
deriving DecidableEq

/-- Outcome of the `apiRequest` upstream attempt, as seen by `handleQuery`:
either the promise resolved with content-type and body, or it rejected. -/
inductive ApiOutcome where
  | resolved (contentType body : String)
  /-- Rejected because the timer elapsed first (abort reason: timeout). -/
  | timeout
  /-- Rejected before the timer: HTTP non-2xx throw or network error. -/
  | error
deriving DecidableEq

/-- Outcome of one directory-refresh attempt inside `listRouters`. -/
inductive DirFetchOutcome where
  | success (entries : List RawEntry)
  /-- The 2000 ms timer elapsed before the fetch settled. -/
  | timeout
  /-- Network error, non-success HTTP status, or malformed JSON body. -/
  | error
deriving DecidableEq

/-- Whether a directory-refresh attempt failed (for any of the reasons the
`catch` block swallows: network error, bad status, timeout, bad body). -/
def DirFetchOutcome.isFailure : DirFetchOutcome → Bool
  | .success _ => false
  | .timeout => true
  | .error => true

/-- What `handleQuery` hands to the HTTP boundary, plus the timer's fate. -/
structure QueryResponse where
  contentType : String
  body : String
  source : String
  timer : TimerState
deriving DecidableEq

/-- Result of one `listRouters` call: the new module state, the returned
list, whether a network fetch was attempted, and the timer's fate. -/
structure ListRoutersResult where
  state : DirState
  routers : List Router
  fetched : Bool
  timer : TimerState
deriving DecidableEq

/-! ### Source operations: timeout race and upstream attempt -/

/-- Whether the platform call settles strictly before the timeout elapses. -/
def completesBefore (timeoutMs : Nat) : FetchEvent → Bool
  | .response _ _ _ t => decide (t < timeoutMs)
  | .netError t => decide (t < timeoutMs)
  | .hang => false

/-- Race the fetch against the `setTimeout` timer (embedding of the
timer + `AbortController` + `fetch(..., { signal })` wiring): the first of
{settlement, deadline} wins. -/
def withTimeout (timeoutMs : Nat) (ev : FetchEvent) : RaceResult :=
  match ev with
  | .response ok ct body t => if t < timeoutMs then .fulfilled ok ct body else .timedOut
  | .netError t => if t < timeoutMs then .netFailed else .timedOut
  | .hang => .timedOut

/-- Whether the abort signal was delivered to the in-flight call, i.e. the
timer elapsed before the call settled on its own. -/
def abortSignaled (timeoutMs : Nat) (ev : FetchEvent) : Bool :=
  !completesBefore timeoutMs ev

/-- `apiRequest` (upstream attempt with the caller's 1000 ms timer): awaits
the raced fetch, throws `HTTP <status>` when `!res.ok`, otherwise resolves
with the response's content-type and text. -/
def apiRequest (timeoutMs : Nat) (ev : FetchEvent) : ApiOutcome :=
  match withTimeout timeoutMs ev with
  | .fulfilled true ct body => .resolved ct body
  | .fulfilled false _ _ => .error
  | .netFailed => .error
  | .timedOut => .timeout

/-! ### Source operations: directory fetch, parse and cache (`testbed.mjs`) -/

/-- `fetchTestbedNodes` body loop over `Object.values` of the directory JSON:
prefer `o._real_position || o.position`; skip unless it is an array of length
two; skip when `new URL(o.site)` throws (`urlHost` returns `none`) or the
host is empty or `"0.0.0.0"`; otherwise push the parsed router with the
position components swapped. -/
def fetchTestbedNodes (urlHost : String → Option String) : List RawEntry → List Router
  | [] => []
  | o :: rest =>
    let pos :=
      match o.realPosition with
      | some p => some p
      | none => o.position
    match pos with
    | none => fetchTestbedNodes urlHost rest
    | some p =>
      if p.length ≠ 2 then fetchTestbedNodes urlHost rest
      else
        match urlHost o.site with
        | none => fetchTestbedNodes urlHost rest
        | some host =>
          if host = "" ∨ host = "0.0.0.0" then fetchTestbedNodes urlHost rest
          else
            { id := o.shortname
              position := (p.getD 1 0, p.getD 0 0)
              host := host
              udp := o.fchEnabled
              wss := o.fchEnabled && o.wsTls } :: fetchTestbedNodes urlHost rest

/-- One directory-refresh attempt under the 2000 ms timer: `res.json()` is
modelled by `parseJson` on the body text; a malformed body (`none`) throws
like any other failure. -/
def dirFetch (parseJson : String → Option (List RawEntry)) (ev : FetchEvent) :
    DirFetchOutcome :=
  match withTimeout 2000 ev with
  | .fulfilled true _ body =>
    match parseJson body with
    | some entries => .success entries
    | none => .error
  | .fulfilled false _ _ => .error
  | .netFailed => .error
  | .timedOut => .timeout

/-- `listRouters`: refresh the cache when more than one hour has passed since
the last successful fetch (guard read at `now`); on success replace the list
and record `Date.now()` (taken after the await, `nowDone`) and clear the
timer; on any failure keep the previous state (the `catch` block only logs,
and does not clear the timer). -/
def listRouters (urlHost : String → Option String)
    (parseJson : String → Option (List RawEntry)) (ev : FetchEvent)
    (now nowDone : Int) (st : DirState) : ListRoutersResult :=
  if st.lastFetch + 3600000 < now then
    match dirFetch parseJson ev with
    | .success entries =>
      let rs := fetchTestbedNodes urlHost entries
      { state := { routers := rs, lastFetch := nowDone }
        routers := rs
        fetched := true
        timer := .cleared }
    | .timeout => { state := st, routers := st.routers, fetched := true, timer := .fired }
    | .error => { state := st, routers := st.routers, fetched := true, timer := .pending }
  else
    { state := st, routers := st.routers, fetched := false, timer := .notCreated }

/-! ### Source operations: query parsing, serialization, resolution -/

/-- `Query.parseBooleanParam`: `"1"` is true, `"0"` is false, anything else
(including an absent parameter) is the default. -/
def parseBooleanParam (v : Option String) (dflt : Bool) : Bool :=
  match v with
  | some "1" => true
  | some "0" => false
  | _ => dflt

/-- `Query.parseFloatParam`: `Number.parseFloat` of the raw value, kept when
`v >= min && v <= max` (false for NaN), otherwise the default. -/
def parseFloatParam (v : Option String) (lo hi dflt : ℚ) : ℚ :=
  match v.bind jsParseFloat with
  | some x => if lo ≤ x ∧ x ≤ hi then x else dflt
  | none => dflt

/-- The `Query` constructor (current variant): repeated `k` values parsed
with `parseInt` and clamped via `Math.max(1, n)` (NaN becomes 1), defaulting
to the raw list `["1"]`; `cap` repeated with default `["udp"]`; booleans and
coordinates per the helpers; `network` taken verbatim. -/
def Query.parse (p : RawParams) (h : ClientHints) : Query :=
  let ip := h.ip.getD ""
  { count := (if p.k.isEmpty then ["1"] else p.k).map (fun ks =>
      match jsParseIntDec ks with
      | some n => max 1 n
      | none => 1)
    transport := if p.cap.isEmpty then ["udp"] else p.cap
    ipv4 := parseBooleanParam p.ipv4 true
    ipv6 := parseBooleanParam p.ipv6 (ip.data.contains ':')
    lon := parseFloatParam p.lon (-180) 180 h.longitude
    lat := parseFloatParam p.lat (-90) 90 h.latitude
    network := p.network }

/-- `Query.toSearchParams`: repeated `k` and `cap`, booleans as `"1"`/`"0"`,
coordinates through JS number formatting (`intToStr` / `numToStr` stand for
template interpolation), and `network` only when truthy (set and
non-empty). -/
def Query.toSearchParams (intToStr : Int → String) (numToStr : ℚ → String)
    (q : Query) : RawParams :=
  { k := q.count.map intToStr
    cap := q.transport
    ipv4 := some (if q.ipv4 then "1" else "0")
    ipv6 := some (if q.ipv6 then "1" else "0")
    lon := some (numToStr q.lon)
    lat := some (numToStr q.lat)
    network :=
      match q.network with
      | some s => if s = "" then none else some s
      | none => none }

/-- `fallbackLogic`: filter the directory to routers where some requested
name is a truthy property (`q.transport.some((c) => !!router[c])`), sort by
distance to the query position with the JS stable sort (ties keep directory
order), keep the first `q.count[0]`, and join the hosts with a comma.  The
turf great-circle distance is an external library, abstracted as `dist`. -/
def fallbackLogic (dist : ℚ × ℚ → ℚ × ℚ → ℚ) (routers : List Router)
    (q : Query) : String × String :=
  let pos := (q.lon, q.lat)
  let avail := routers.filter (fun router => q.transport.any (fun c => router.jsProp c))
  let sorted := avail.mergeSort (fun a b =>
    decide (dist pos a.position ≤ dist pos b.position))
  ("text/plain", String.intercalate "," ((jsSliceFirst q.count sorted).map Router.host))

/-- `handleQuery`: attempt the upstream API under the 1000 ms timer; on
resolution clear the timer and tag `source = "api"`; when the body is empty
(including every rejection, which leaves `body = ""`), recompute locally and
tag `source = "fallback"`.  `clearTimeout` is only reached on the resolve
path; a timeout means the timer already fired; any other rejection leaves
the timer scheduled. -/
def handleQuery (dist : ℚ × ℚ → ℚ × ℚ → ℚ) (routers : List Router)
    (ev : FetchEvent) (q : Query) : QueryResponse :=
  match apiRequest 1000 ev with
  | .resolved ct body =>
    if body = "" then
      let fb := fallbackLogic dist routers q
      { contentType := fb.1, body := fb.2, source := "fallback", timer := .cleared }
    else
      { contentType := ct, body := body, source := "api", timer := .cleared }
  | .timeout =>
    let fb := fallbackLogic dist routers q
    { contentType := fb.1, body := fb.2, source := "fallback", timer := .fired }
  | .error =>
    let fb := fallbackLogic dist routers q
    { contentType := fb.1, body := fb.2, source := "fallback", timer := .pending }

/-! ### Specification-side definitions

These render the spec's wording (not the source) and are compared with the
source-translated operations in the refinement theorems. -/

/-- Comparison on index-tagged elements describing the spec's ranking rule:
strictly smaller distance first, and for equal distances the smaller
directory index first (stable tie-break). -/
def keyLex (key : α → ℚ) (p q : Nat × α) : Prop :=
  key p.2 < key q.2 ∨ (key p.2 = key q.2 ∧ p.1 ≤ q.1)

instance keyLexDecidable (key : α → ℚ) : DecidableRel (keyLex key) := fun p q => by
  unfold keyLex
  exact inferInstance

instance keyLexTrans (key : α → ℚ) : IsTrans (Nat × α) (keyLex key) := by
  constructor
  intro p q r hpq hqr
  rcases hpq with h1 | ⟨e1, i1⟩ <;> rcases hqr with h2 | ⟨e2, i2⟩
  · exact Or.inl (h1.trans h2)
  · exact Or.inl (e2 ▸ h1)
  · exact Or.inl (e1 ▸ h2)
  · exact Or.inr ⟨e1.trans e2, i1.trans i2⟩

instance keyLexTotal (key : α → ℚ) : IsTotal (Nat × α) (keyLex key) := by
  constructor
  intro p q
  rcases lt_trichotomy (key p.2) (key q.2) with h | h | h
  · exact Or.inl (Or.inl h)
  · rcases Nat.le_total p.1 q.1 with hi | hi
    · exact Or.inl (Or.inr ⟨h, hi⟩)
    · exact Or.inr (Or.inr ⟨h.symm, hi⟩)
  · exact Or.inr (Or.inl h)

/-- Spec-side stable ascending sort by a numeric key: tag each element with
its directory index, sort by (key, index) lexicographically with insertion
sort, and forget the tags. -/
def stableSortByKey (key : α → ℚ) (l : List α) : List α :=
  ((l.enum).insertionSort (keyLex key)).map Prod.snd

/-- The fallback response as the claim state it: filter to nodes where some
requested CAPABILITY flag is true, rank by distance ascending with the
stable tie-break, truncate to the first `count[0]`, join hosts with a comma,
content-type plain text. -/
def fallbackClaim (dist : ℚ × ℚ → ℚ × ℚ → ℚ) (routers : List Router)
    (q : Query) : String × String :=
  let pos := (q.lon, q.lat)
  let eligible := routers.filter (fun router => q.transport.any (fun c => router.capFlag c))
  let ranked := stableSortByKey (fun router => dist pos router.position) eligible
  ("text/plain", String.intercalate "," ((ranked.take q.count.headI.toNat).map Router.host))

/-- Claim-side per-entry directory parsing rule: prefer the real-position
override, require exactly a two-element pair, require a non-empty host other
than the unspecified address, swap stored (lat, lon) to (lon, lat), `udp` is
the enabled flag, `wss` is the enabled flag AND the TLS flag. -/
def parseEntryClaim (urlHost : String → Option String) (o : RawEntry) :
    Option Router :=
  match o.realPosition.orElse (fun _ => o.position) with
  | some [la, lo] =>
    (urlHost o.site).bind (fun host =>
      if host ≠ "" ∧ host ≠ "0.0.0.0" then
        some { id := o.shortname
               position := (lo, la)
               host := host
               udp := o.fchEnabled
               wss := o.fchEnabled && o.wsTls }
      else none)
  | _ => none

/-- The claim's success criterion for the upstream attempt: a 2xx response
with a non-empty body, settled within the 1000 ms bound. -/
def upstreamGood (ev : FetchEvent) : Option (String × String) :=
  match ev with
  | .response ok ct body t =>
    if ok ∧ t < 1000 ∧ body ≠ "" then some (ct, body) else none
  | _ => none

/-- The claim's contract for one coordinate axis: the explicit parameter is
kept exactly when its parsed value is in range (and then the result is in
range); otherwise the caller-supplied hint is used. -/
def floatClause (v : Option String) (lo hi dflt x : ℚ) : Prop :=
  match v.bind jsParseFloat with
  | some w => (lo ≤ w ∧ w ≤ hi → x = w ∧ lo ≤ x ∧ x ≤ hi) ∧ (¬(lo ≤ w ∧ w ≤ hi) → x = dflt)
  | none => x = dflt

/-! ### Concrete sample inputs (used by counterexamples and witnesses) -/

/-- A degenerate distance function for concrete evaluations. -/
def dist0 : ℚ × ℚ → ℚ × ℚ → ℚ := fun _ _ => 0

/-- Trivial client hints. -/
def hints0 : ClientHints := { ip := none, longitude := 0, latitude := 0 }

/-- Raw parameters requesting the capability name "id". -/
def rawC1 : RawParams :=
  { k := [], cap := ["id"], ipv4 := none, ipv6 := none, lon := none, lat := none,
    network := none }

/-- Raw parameters of a plain udp request for two hosts. -/
def rawW : RawParams :=
  { k := ["2"], cap := ["udp"], ipv4 := none, ipv6 := none, lon := none, lat := none,
    network := none }

/-- A directory node with both capability flags off. -/
def routerA : Router :=
  { id := "a", position := (0, 0), host := "h", udp := false, wss := false }

/-- A udp-capable directory node. -/
def routerB : Router :=
  { id := "b", position := (10, 10), host := "hb", udp := true, wss := false }

/-- A sample query with ipv4/ipv6 on and no network filter. -/
def queryP : Query :=
  { count := [1], transport := ["udp"], ipv4 := true, ipv6 := true,
    lon := 0, lat := 0, network := none }

/-- Like `queryP` but with the opposite ipv4/ipv6 preferences and a network
filter set. -/
def queryQ : Query :=
  { count := [1], transport := ["udp"], ipv4 := false, ipv6 := false,
    lon := 0, lat := 0, network := some "n" }

/-- An upstream 2xx response with a non-empty body settling at 5 ms. -/
def evOk : FetchEvent := .response true "application/json" "host1" 5

/-- An HTTP 2xx settlement arriving only at 1500 ms. -/
def evLate : FetchEvent := .response true "text/plain" "late" 1500

/-- An upstream HTTP failure settling quickly (status throw at 5 ms). -/
def evErr : FetchEvent := .response false "text/plain" "oops" 5

/-- A URL parser that rejects every site string. -/
def urlHost0 : String → Option String := fun _ => none

/-- A JSON body parser that rejects every body (malformed body). -/
def parseJson0 : String → Option (List RawEntry) := fun _ => none

/-- A JSON body parser yielding an empty directory document. -/
def parseJsonNil : String → Option (List RawEntry) := fun _ => some []

/-- A directory fetch settling successfully at 5 ms. -/
def evDir : FetchEvent := .response true "application/json" "x" 5

/-- A request with every parameter absent. -/
def pEmpty : RawParams :=
  { k := [], cap := [], ipv4 := none, ipv6 := none, lon := none, lat := none,
    network := none }

/-- A request carrying an explicitly empty network parameter. -/
def pNetEmpty : RawParams :=
  { k := [], cap := [], ipv4 := none, ipv6 := none, lon := none, lat := none,
    network := some "" }

/-- Client hints placing the caller at longitude/latitude 7. -/
def hints7 : ClientHints := { ip := none, longitude := 7, latitude := 7 }

/-- A degenerate JS integer formatter valid for the value 1. -/
def intToStr0 : Int → String := fun _ => "1"

/-- A degenerate JS number formatter valid for the value 0. -/
def numToStr0 : ℚ → String := fun _ => "0"

/-- A degenerate JS number formatter valid for the value 7. -/
def numToStr7 : ℚ → String := fun _ => "7"

/-- A raw directory entry whose stored position `[200, 50]` is well-shaped
but out of range as a latitude. -/
def entry200 : RawEntry :=
  { shortname := "n", realPosition := none, position := some [200, 50],
    site := "https://x", fchEnabled := true, wsTls := false }

/-- A URL parser knowing exactly one site. -/
def hostX : String → Option String :=
  fun s => if s = "https://x" then some "x.example" else none

/-! ### Helper lemmas: uniqueness of the stable sort -/

/-- Two lists that are permutations of each other and both pairwise-ordered
by `R` coincide, provided `R` is antisymmetric on the elements involved. -/
theorem eq_of_perm_of_pairwise_of_antisymmOn {R : α → α → Prop} :
    ∀ {l₁ l₂ : List α}, l₁.Perm l₂ → l₁.Pairwise R → l₂.Pairwise R →
      (∀ a, a ∈ l₁ → ∀ b, b ∈ l₁ → R a b → R b a → a = b) → l₁ = l₂ := by
  intro l₁
  induction l₁ with
  | nil =>
    intro l₂ hp _ _ _
    exact hp.nil_eq
  | cons a t ih =>
    intro l₂ hp h1 h2 hanti
    cases l₂ with
    | nil => cases (hp.symm.nil_eq)
    | cons b t₂ =>
      have hab : a = b := by
        by_contra hne
        have ha2 : a ∈ b :: t₂ := hp.subset (List.mem_cons_self a t)
        have hb1 : b ∈ a :: t := hp.symm.subset (List.mem_cons_self b t₂)
        have ha2' : a ∈ t₂ := by
          rcases List.mem_cons.mp ha2 with h | h
          · exact absurd h hne
          · exact h
        have hb1' : b ∈ t := by
          rcases List.mem_cons.mp hb1 with h | h
          · exact absurd h.symm hne
          · exact h
        have hRab : R a b := (List.pairwise_cons.mp h1).1 b hb1'
        have hRba : R b a := (List.pairwise_cons.mp h2).1 a ha2'
        exact hne (hanti a (List.mem_cons_self a t) b (List.mem_cons_of_mem a hb1') hRab hRba)
      subst hab
      have htail : t = t₂ :=
        ih hp.cons_inv h1.of_cons h2.of_cons
          (fun x hx y hy => hanti x (List.mem_cons_of_mem a hx) y (List.mem_cons_of_mem a hy))
      rw [htail]

/-- The Boolean tagged comparison used by the sorting library on enumerated
elements agrees with the spec's lexicographic (key, index) comparison. -/
theorem enumLE_decide_iff (key : α → ℚ) (p q : Nat × α) :
    List.enumLE (fun a b => decide (key a ≤ key b)) p q = true ↔ keyLex key p q := by
  by_cases h1 : key p.2 ≤ key q.2 <;> by_cases h2 : key q.2 ≤ key p.2
  · have he : key p.2 = key q.2 := le_antisymm h1 h2
    simp [List.enumLE, keyLex, h1, h2, he, lt_irrefl]
  · have hlt : key p.2 < key q.2 := lt_of_le_not_le h1 h2
    simp [List.enumLE, keyLex, h1, h2, hlt]
  · have hlt : key q.2 < key p.2 := lt_of_le_not_le h2 h1
    simp [List.enumLE, keyLex, h1, h2, not_lt_of_lt hlt, ne_of_gt hlt]
  · rcases le_total (key p.2) (key q.2) with h | h
    · exact absurd h h1
    · exact absurd h h2

/-- In an enumerated list, the index determines the element. -/
theorem enum_snd_eq_of_fst_eq {l : List α} {i : Nat} {x y : α}
    (hx : (i, x) ∈ l.enum) (hy : (i, y) ∈ l.enum) : x = y := by
  have hx' := List.mk_mem_enum_iff_getElem?.mp hx
  have hy' := List.mk_mem_enum_iff_getElem?.mp hy
  rw [hx'] at hy'
  exact (Option.some.injEq x y ▸ hy').symm ▸ rfl

/-- The JS stable sort by a numeric key (library merge sort on the Boolean
comparison) equals the spec's stable sort (insertion sort on index-tagged
elements under the lexicographic order). -/
theorem mergeSort_key_eq_stableSortByKey (key : α → ℚ) (l : List α) :
    l.mergeSort (fun a b => decide (key a ≤ key b)) = stableSortByKey key l := by
  have htrans : ∀ a b c : α, decide (key a ≤ key b) = true →
      decide (key b ≤ key c) = true → decide (key a ≤ key c) = true := by
    intro a b c hab hbc
    simp only [decide_eq_true_eq] at hab hbc ⊢
    exact hab.trans hbc
  have htotal : ∀ a b : α, (decide (key a ≤ key b) || decide (key b ≤ key a)) = true := by
    intro a b
    rcases le_total (key a) (key b) with h | h <;> simp [h]
  rw [← List.mergeSort_enum]
  unfold stableSortByKey
  congr 1
  apply eq_of_perm_of_pairwise_of_antisymmOn (R := keyLex key)
  · exact (List.mergeSort_perm _ _).trans (List.perm_insertionSort _ _).symm
  · exact (List.sorted_mergeSort (List.enumLE_trans htrans) (List.enumLE_total htotal)
      l.enum).imp (fun h => (enumLE_decide_iff key _ _).mp h)
  · exact List.sorted_insertionSort (keyLex key) l.enum
  · intro p hp q hq hpq hqp
    have hkey : key p.2 = key q.2 := by
      rcases hpq with h | ⟨h, _⟩
      · rcases hqp with h' | ⟨h', _⟩
        · exact absurd h' (not_lt_of_lt h)
        · exact h'.symm
      · exact h
    have hidx : p.1 = q.1 := by
      rcases hpq with h | ⟨_, hi⟩
      · exact absurd hkey.symm (ne_of_gt h)
      · rcases hqp with h' | ⟨_, hi'⟩
        · exact absurd hkey (ne_of_gt h')
        · exact Nat.le_antisymm hi hi'
    have hp' : (p.1, p.2) ∈ l.enum := by
      rw [Prod.mk.eta]
      exact List.mem_mergeSort.mp hp
    have hq' : (p.1, q.2) ∈ l.enum := by
      rw [hidx, Prod.mk.eta]
      exact List.mem_mergeSort.mp hq
    have : p.2 = q.2 := enum_snd_eq_of_fst_eq hp' hq'
    exact Prod.ext hidx this

/-! ### Helper lemmas: parsing invariants -/

/-- Congruence for Boolean `any` under pointwise-equal predicates. -/
theorem any_congrOn {l : List α} {f g : α → Bool} (h : ∀ x ∈ l, f x = g x) :
    l.any f = l.any g := by
  induction l with
  | nil => rfl
  | cons a t ih =>
    simp only [List.any_cons]
    rw [h a (List.mem_cons_self a t), ih (fun x hx => h x (List.mem_cons_of_mem a hx))]

/-- A parsed query's count list is never empty. -/
theorem parse_count_ne_nil (p : RawParams) (h : ClientHints) :
    (Query.parse p h).count ≠ [] := by
  unfold Query.parse
  by_cases hk : p.k.isEmpty <;>
    simp_all [List.isEmpty_iff]

/-- Every entry of a parsed query's count list is at least 1. -/
theorem parse_count_pos (p : RawParams) (h : ClientHints) :
    ∀ k ∈ (Query.parse p h).count, 1 ≤ k := by
  intro k hk
  unfold Query.parse at hk
  simp only [List.mem_map] at hk
  obtain ⟨ks, -, hks⟩ := hk
  subst hks
  cases jsParseIntDec ks with
  | none => exact le_refl 1
  | some n => exact le_max_left 1 n

/-- A parsed query's transport list is never empty. -/
theorem parse_transport_ne_nil (p : RawParams) (h : ClientHints) :
    (Query.parse p h).transport ≠ [] := by
  unfold Query.parse
  by_cases hc : p.cap.isEmpty <;>
    simp_all [List.isEmpty_iff]

/-- A parsed coordinate is either within its bounds or the hint verbatim. -/
theorem parseFloatParam_cases (v : Option String) (lo hi dflt : ℚ) :
    (lo ≤ parseFloatParam v lo hi dflt ∧ parseFloatParam v lo hi dflt ≤ hi) ∨
      parseFloatParam v lo hi dflt = dflt := by
  unfold parseFloatParam
  cases v.bind jsParseFloat with
  | none => exact Or.inr rfl
  | some x =>
    by_cases hx : lo ≤ x ∧ x ≤ hi
    · simp [hx]
    · simp [hx]

/-! ### Claim C1 -/

/-- Counterexample to claim C1 as stated: for the parsed query with
`cap=id`, the fallback filter probes the router record's `id` property
(`!!router[c]`), so a node with NO true capability flag is still selected;
the claim's capability-flag filter would select nothing. -/
theorem fallback_cap_filter_cex :
    fallbackLogic dist0 [routerA] (Query.parse rawC1 hints0) ≠
      fallbackClaim dist0 [routerA] (Query.parse rawC1 hints0) := by
  have hq : Query.parse rawC1 hints0 =
      { count := [1], transport := ["id"], ipv4 := true, ipv6 := false,
        lon := 0, lat := 0, network := none } := by decide
  have hf1 : List.filter (fun router => List.any ["id"] (fun c => router.jsProp c))
      [routerA] = [routerA] := by decide
  have hf2 : List.filter (fun router => List.any ["id"] (fun c => router.capFlag c))
      [routerA] = [] := by decide
  rw [hq]
  simp only [fallbackLogic, fallbackClaim, stableSortByKey, hf1, hf2,
    List.mergeSort_singleton, List.enum_nil, List.insertionSort, List.map_nil,
    List.take_nil, jsSliceFirst, List.headI]
  norm_num [routerA, String.intercalate, String.intercalate.go]
  decide

/-- Claim C1 (amended): whenever every requested transport name is one of
the capability names ("udp"/"wss"), the fallback response is exactly the
claim's: hosts of the nodes with some requested capability flag true, in
ascending distance from the query position with directory order kept on
ties, truncated to the first `count[0]`, comma-joined, plain text. -/
theorem fallbackLogic_eq_fallbackClaim (dist : ℚ × ℚ → ℚ × ℚ → ℚ)
    (routers : List Router) (q : Query)
    (hcap : ∀ c ∈ q.transport, c = "udp" ∨ c = "wss")
    (hne : q.count ≠ []) (hpos : ∀ k ∈ q.count, 1 ≤ k) :
    fallbackLogic dist routers q = fallbackClaim dist routers q := by
  obtain ⟨k, rest, hk⟩ : ∃ k rest, q.count = k :: rest := by
    cases hcnt : q.count with
    | nil => exact absurd hcnt hne
    | cons k rest => exact ⟨k, rest, rfl⟩
  have hk1 : 1 ≤ k := hpos k (by rw [hk]; exact List.mem_cons_self _ _)
  have hfilter :
      routers.filter (fun router => q.transport.any (fun c => router.jsProp c)) =
        routers.filter (fun router => q.transport.any (fun c => router.capFlag c)) := by
    apply List.filter_congr
    intro r _
    apply any_congrOn
    intro c hc
    rcases hcap c hc with h | h <;> subst h <;> simp [Router.jsProp, Router.capFlag]
  have hsort := mergeSort_key_eq_stableSortByKey
    (fun r : Router => dist (q.lon, q.lat) r.position)
    (routers.filter (fun router => q.transport.any (fun c => router.capFlag c)))
  have hnneg : ¬ k < 0 := by omega
  simp only [fallbackLogic, fallbackClaim, hfilter, hsort, hk, jsSliceFirst, hnneg,
    if_false, List.headI]

/-- Witness for the amended claim C1 at a concrete request (`k=2&cap=udp`)
and a two-node directory. -/
theorem fallbackLogic_eq_fallbackClaim_witness :
    (∀ c ∈ (Query.parse rawW hints0).transport, c = "udp" ∨ c = "wss") ∧
      ((Query.parse rawW hints0).count ≠ []) ∧
      (∀ k ∈ (Query.parse rawW hints0).count, 1 ≤ k) ∧
      fallbackLogic dist0 [routerA, routerB] (Query.parse rawW hints0) =
        fallbackClaim dist0 [routerA, routerB] (Query.parse rawW hints0) :=
  ⟨by decide, by decide, by decide,
    fallbackLogic_eq_fallbackClaim dist0 [routerA, routerB] (Query.parse rawW hints0)
      (by decide) (by decide) (by decide)⟩

/-! ### Claim C10 -/

/-- Claim C10: the local fallback never reads the ipv4/ipv6 preferences or
the network filter — two queries agreeing on position, transport and count
produce the identical fallback body and content-type. -/
theorem fallbackLogic_ignores_ip_network (dist : ℚ × ℚ → ℚ × ℚ → ℚ)
    (routers : List Router) (q1 q2 : Query)
    (hlon : q1.lon = q2.lon) (hlat : q1.lat = q2.lat)
    (ht : q1.transport = q2.transport) (hc : q1.count = q2.count) :
    fallbackLogic dist routers q1 = fallbackLogic dist routers q2 := by
  cases q1
  cases q2
  simp only at hlon hlat ht hc
  subst hlon hlat ht hc
  rfl

/-- Witness for claim C10 at two concrete queries differing in ipv4, ipv6
and network. -/
theorem fallbackLogic_ignores_ip_network_witness :
    (queryP.lon = queryQ.lon ∧ queryP.lat = queryQ.lat ∧
      queryP.transport = queryQ.transport ∧ queryP.count = queryQ.count) ∧
      fallbackLogic dist0 [routerA, routerB] queryP =
        fallbackLogic dist0 [routerA, routerB] queryQ :=
  ⟨⟨rfl, rfl, rfl, rfl⟩,
    fallbackLogic_ignores_ip_network dist0 [routerA, routerB] queryP queryQ
      rfl rfl rfl rfl⟩

/-! ### Claim C2 -/

/-- Claim C2: the response carries the upstream content-type and body with
source tag "api" exactly when the upstream attempt produced a 2xx response
with a non-empty body within the 1000 ms bound; in every other case the
fallback computation supplies body and content-type and the tag is
"fallback". -/
theorem handleQuery_source_spec (dist : ℚ × ℚ → ℚ × ℚ → ℚ)
    (routers : List Router) (ev : FetchEvent) (q : Query) :
    ((handleQuery dist routers ev q).source = "api" ↔ (upstreamGood ev).isSome) ∧
    (∀ ct body, upstreamGood ev = some (ct, body) →
      handleQuery dist routers ev q =
        { contentType := ct, body := body, source := "api", timer := .cleared }) ∧
    (upstreamGood ev = none →
      (handleQuery dist routers ev q).contentType = (fallbackLogic dist routers q).1 ∧
      (handleQuery dist routers ev q).body = (fallbackLogic dist routers q).2 ∧
      (handleQuery dist routers ev q).source = "fallback") := by
  rcases ev with ⟨ok, ct, body, t⟩ | t | _
  · by_cases ht : t < 1000
    · cases ok
      · simp [handleQuery, apiRequest, withTimeout, upstreamGood, ht]
      · by_cases hb : body = ""
        · subst hb
          simp [handleQuery, apiRequest, withTimeout, upstreamGood, ht]
        · simp [handleQuery, apiRequest, withTimeout, upstreamGood, ht, hb]
    · simp [handleQuery, apiRequest, withTimeout, upstreamGood, ht]
  · by_cases ht : t < 1000 <;>
      simp [handleQuery, apiRequest, withTimeout, upstreamGood, ht]
  · simp [handleQuery, apiRequest, withTimeout, upstreamGood]

/-- Witness for claim C2: a good upstream response is forwarded verbatim
with source "api". -/
theorem handleQuery_source_spec_witness :
    upstreamGood evOk = some ("application/json", "host1") ∧
      handleQuery dist0 [routerA] evOk queryP =
        { contentType := "application/json", body := "host1", source := "api",
          timer := .cleared } :=
  ⟨by decide,
    (handleQuery_source_spec dist0 [routerA] evOk queryP).2.1
      "application/json" "host1" (by decide)⟩

/-! ### Claim C8 -/

/-- Claim C8: racing a call against its timer produces exactly one outcome:
the timeout failure exactly when the call does not settle before the bound
(and exactly then the in-flight call is signalled for cancellation);
otherwise the call's own outcome, with a non-2xx response turned into a
failure by `apiRequest`.  The embedding is a deterministic function of the
settlement event, so double resolution is impossible by construction. -/
theorem withTimeout_race_spec (timeoutMs : Nat) (ev : FetchEvent) :
    ((withTimeout timeoutMs ev = .timedOut) ↔ completesBefore timeoutMs ev = false) ∧
    (abortSignaled timeoutMs ev = true ↔ withTimeout timeoutMs ev = .timedOut) ∧
    (∀ ok ct body t, ev = .response ok ct body t → t < timeoutMs →
      withTimeout timeoutMs ev = .fulfilled ok ct body) ∧
    (∀ ct body t, ev = .response false ct body t → t < timeoutMs →
      apiRequest timeoutMs ev = .error) ∧
    (∀ ct body, apiRequest timeoutMs ev = .resolved ct body →
      completesBefore timeoutMs ev = true ∧
        withTimeout timeoutMs ev = .fulfilled true ct body) := by
  rcases ev with ⟨ok, ct, body, t⟩ | t | _
  · by_cases ht : t < timeoutMs
    · cases ok <;>
        simp [withTimeout, completesBefore, abortSignaled, apiRequest, ht]
    · cases ok <;>
        simp [withTimeout, completesBefore, abortSignaled, apiRequest, ht] <;> omega
  · by_cases ht : t < timeoutMs <;>
      simp [withTimeout, completesBefore, abortSignaled, apiRequest, ht]
  · simp [withTimeout, completesBefore, abortSignaled, apiRequest]

/-- Witness for claim C8 at the 1000 ms upstream bound: a call settling at
1500 ms loses the race, the call is signalled, and the attempt fails with
the timeout outcome. -/
theorem withTimeout_race_spec_witness :
    (FetchEvent.response false "" "" 5 = FetchEvent.response false "" "" 5) ∧
      (5 < 1000) ∧
      apiRequest 1000 (.response false "" "" 5) = .error ∧
      withTimeout 1000 evLate = .timedOut :=
  ⟨rfl, by decide,
    (withTimeout_race_spec 1000 (.response false "" "" 5)).2.2.2.1 "" "" 5 rfl (by decide),
    (withTimeout_race_spec 1000 evLate).1.mpr (by decide)⟩

/-! ### Claim C9 -/

/-- Counterexample to claim C9 as stated: when the upstream attempt rejects
before the timer (here an HTTP error at 5 ms), the `catch` block does not
reach `clearTimeout`, so the timer is still pending when the response is
returned — not cleared on that exit path. -/
theorem timer_left_pending_cex :
    (handleQuery dist0 [routerA] evErr queryP).timer = .pending ∧
      TimerState.pending ≠ TimerState.cleared := by
  constructor
  · decide
  · decide

/-- Claim C9 (amended): the timeout timer is cleared exactly on the exit
paths where the awaited fetch resolves; when the attempt fails before the
bound (HTTP error, network error, malformed directory body) the timer is
left pending, and when the bound elapses first the timer has already fired.
This holds for both the upstream attempt and the directory refresh (whose
timer exists only when a refresh is attempted). -/
theorem timer_fate_characterization (dist : ℚ × ℚ → ℚ × ℚ → ℚ)
    (routers : List Router) (ev : FetchEvent) (q : Query)
    (urlHost : String → Option String)
    (parseJson : String → Option (List RawEntry))
    (now nowDone : Int) (st : DirState) :
    ((handleQuery dist routers ev q).timer = .cleared ↔
      (∃ ct body, apiRequest 1000 ev = .resolved ct body)) ∧
    ((handleQuery dist routers ev q).timer = .pending ↔
      apiRequest 1000 ev = .error) ∧
    ((handleQuery dist routers ev q).timer = .fired ↔
      apiRequest 1000 ev = .timeout) ∧
    (st.lastFetch + 3600000 < now →
      (((listRouters urlHost parseJson ev now nowDone st).timer = .cleared ↔
        (∃ es, dirFetch parseJson ev = .success es)) ∧
       ((listRouters urlHost parseJson ev now nowDone st).timer = .pending ↔
        dirFetch parseJson ev = .error) ∧
       ((listRouters urlHost parseJson ev now nowDone st).timer = .fired ↔
        dirFetch parseJson ev = .timeout))) ∧
    (¬ st.lastFetch + 3600000 < now →
      (listRouters urlHost parseJson ev now nowDone st).timer = .notCreated) := by
  refine ⟨?_, ?_, ?_, ?_, ?_⟩
  · cases h : apiRequest 1000 ev <;> simp [handleQuery, h]
    all_goals split <;> simp
  · cases h : apiRequest 1000 ev <;> simp [handleQuery, h]
    all_goals split <;> simp
  · cases h : apiRequest 1000 ev <;> simp [handleQuery, h]
    all_goals split <;> simp
  · intro hg
    cases h : dirFetch parseJson ev <;> simp [listRouters, hg, h]
  · intro hg
    simp [listRouters, hg]

/-- Witness for the amended claim C9: on a fast HTTP failure the upstream
timer stays pending, and on a fresh cache no directory timer exists. -/
theorem timer_fate_characterization_witness :
    apiRequest 1000 evErr = .error ∧
      (handleQuery dist0 [routerA] evErr queryP).timer = .pending ∧
      (¬ ((⟨[], 0⟩ : DirState).lastFetch + 3600000 < 100)) ∧
      (listRouters (fun _ => none) (fun _ => none) FetchEvent.hang 100 100
        ⟨[], 0⟩).timer = .notCreated :=
  ⟨by decide,
    ((timer_fate_characterization dist0 [routerA] evErr queryP
        (fun _ => none) (fun _ => none) 100 100 ⟨[], 0⟩).2.1).mpr (by decide),
    by decide,
    (timer_fate_characterization dist0 [routerA] evErr queryP
        (fun _ => none) (fun _ => none) 100 100 ⟨[], 0⟩).2.2.2.2 (by decide)⟩

/-! ### Claim C3 -/

/-- Claim C3: a failing directory refresh returns normally with the cached
list unchanged and the whole state (including the last-refresh timestamp)
untouched, so any later call that is past the refresh interval attempts a
fetch again immediately. -/
theorem listRouters_failure_keeps_cache
    (urlHost urlHost2 : String → Option String)
    (parseJson parseJson2 : String → Option (List RawEntry))
    (ev ev2 : FetchEvent) (now nowDone now2 nowDone2 : Int) (st : DirState)
    (hfail : (dirFetch parseJson ev).isFailure = true) :
    (listRouters urlHost parseJson ev now nowDone st).state = st ∧
    (listRouters urlHost parseJson ev now nowDone st).routers = st.routers ∧
    (st.lastFetch + 3600000 < now → now ≤ now2 →
      (listRouters urlHost2 parseJson2 ev2 now2 nowDone2
        (listRouters urlHost parseJson ev now nowDone st).state).fetched = true) := by
  have hst : (listRouters urlHost parseJson ev now nowDone st).state = st ∧
      (listRouters urlHost parseJson ev now nowDone st).routers = st.routers := by
    unfold listRouters
    cases h : dirFetch parseJson ev with
    | success es => rw [h] at hfail; simp [DirFetchOutcome.isFailure] at hfail
    | timeout => split <;> simp
    | error => split <;> simp
  refine ⟨hst.1, hst.2, ?_⟩
  intro hg hle
  rw [hst.1]
  have hg2 : st.lastFetch + 3600000 < now2 := by omega
  unfold listRouters
  simp only [hg2, if_true]
  cases dirFetch parseJson2 ev2 <;> simp

/-- Witness for claim C3: a refresh whose body fails to parse leaves a
populated cache untouched, and the next call past the interval fetches. -/
theorem listRouters_failure_keeps_cache_witness :
    ((dirFetch parseJson0 evErr).isFailure = true) ∧
      (listRouters urlHost0 parseJson0 evErr 4000000 4000001 ⟨[routerA], 0⟩).state
        = ⟨[routerA], 0⟩ ∧
      (listRouters urlHost0 parseJson0 evErr 4000000 4000001 ⟨[routerA], 0⟩).routers
        = [routerA] ∧
      (listRouters urlHost0 parseJsonNil evDir 4000005 4000006
        (listRouters urlHost0 parseJson0 evErr 4000000 4000001
          ⟨[routerA], 0⟩).state).fetched = true :=
  ⟨by decide,
    (listRouters_failure_keeps_cache urlHost0 urlHost0 parseJson0 parseJsonNil
      evErr evDir 4000000 4000001 4000005 4000006 ⟨[routerA], 0⟩ (by decide)).1,
    (listRouters_failure_keeps_cache urlHost0 urlHost0 parseJson0 parseJsonNil
      evErr evDir 4000000 4000001 4000005 4000006 ⟨[routerA], 0⟩ (by decide)).2.1,
    (listRouters_failure_keeps_cache urlHost0 urlHost0 parseJson0 parseJsonNil
      evErr evDir 4000000 4000001 4000005 4000006 ⟨[routerA], 0⟩ (by decide)).2.2
      (by decide) (by decide)⟩

/-! ### Claim C4 -/

/-- Claim C4: a call within the refresh interval of the recorded refresh
time returns the cached list without fetching and leaves the state alone;
and two calls where the first refresh succeeds, separated by less than the
interval, never both fetch. -/
theorem listRouters_at_most_one_fetch
    (urlHost urlHost2 : String → Option String)
    (parseJson parseJson2 : String → Option (List RawEntry))
    (ev ev2 : FetchEvent) (now nowDone now2 nowDone2 : Int) (st : DirState)
    (es : List RawEntry) :
    (now - st.lastFetch < 3600000 →
      listRouters urlHost parseJson ev now nowDone st =
        { state := st, routers := st.routers, fetched := false, timer := .notCreated }) ∧
    (dirFetch parseJson ev = .success es → now ≤ nowDone → now2 - now < 3600000 →
      ¬((listRouters urlHost parseJson ev now nowDone st).fetched = true ∧
        (listRouters urlHost2 parseJson2 ev2 now2 nowDone2
          (listRouters urlHost parseJson ev now nowDone st).state).fetched = true)) := by
  constructor
  · intro hfresh
    have hg : ¬ st.lastFetch + 3600000 < now := by omega
    simp [listRouters, hg]
  · intro hs hnd hsep hand
    obtain ⟨h1, h2⟩ := hand
    by_cases hg : st.lastFetch + 3600000 < now
    · have hstate : (listRouters urlHost parseJson ev now nowDone st).state =
          ⟨fetchTestbedNodes urlHost es, nowDone⟩ := by
        simp [listRouters, hg, hs]
      rw [hstate] at h2
      by_cases hg2 : nowDone + 3600000 < now2
      · omega
      · simp [listRouters, hg2] at h2
    · simp [listRouters, hg] at h1

/-- Witness for claim C4: a call 1000 s after the last refresh serves the
cache without fetching, and a successful-fetch scenario with a second call
2 ms later never fetches twice. -/
theorem listRouters_at_most_one_fetch_witness :
    ((2000000 : Int) - (⟨[], 1000000⟩ : DirState).lastFetch < 3600000) ∧
      (dirFetch parseJsonNil evDir = .success []) ∧
      ((2000000 : Int) ≤ 2000001) ∧ ((2000002 : Int) - 2000000 < 3600000) ∧
      listRouters urlHost0 parseJsonNil evDir 2000000 2000001 ⟨[], 1000000⟩ =
        { state := ⟨[], 1000000⟩, routers := [], fetched := false, timer := .notCreated } ∧
      ¬((listRouters urlHost0 parseJsonNil evDir 2000000 2000001 ⟨[], 1000000⟩).fetched = true ∧
        (listRouters urlHost0 parseJsonNil evDir 2000002 2000003
          (listRouters urlHost0 parseJsonNil evDir 2000000 2000001
            ⟨[], 1000000⟩).state).fetched = true) :=
  ⟨by decide, by decide, by decide, by decide,
    (listRouters_at_most_one_fetch urlHost0 urlHost0 parseJsonNil parseJsonNil
      evDir evDir 2000000 2000001 2000002 2000003 ⟨[], 1000000⟩ []).1 (by decide),
    (listRouters_at_most_one_fetch urlHost0 urlHost0 parseJsonNil parseJsonNil
      evDir evDir 2000000 2000001 2000002 2000003 ⟨[], 1000000⟩ []).2
      (by decide) (by decide) (by decide)⟩

/-! ### Claim C5 -/

/-- `parseFloatParam` satisfies the claim's per-axis contract. -/
theorem floatClause_parseFloatParam (v : Option String) (lo hi dflt : ℚ) :
    floatClause v lo hi dflt (parseFloatParam v lo hi dflt) := by
  unfold floatClause parseFloatParam
  cases hv : v.bind jsParseFloat with
  | none => rfl
  | some w =>
    constructor
    · intro hin
      simp [hin]
    · intro hout
      simp [hout]

/-- Claim C5: parsing is a total function of the raw parameters and hints
(no exception paths exist in the embedding), and the parsed query satisfies
every documented default and bound: positive counts defaulting to `[1]`,
transport defaulting to `["udp"]`, ipv4 defaulting to true, ipv6 defaulting
to whether the caller's address contains a colon, and each coordinate kept
exactly when the explicit parameter parses in range, the hint otherwise. -/
theorem parse_never_fails_bounds (p : RawParams) (h : ClientHints) :
    ((Query.parse p h).count ≠ [] ∧ ∀ k ∈ (Query.parse p h).count, 1 ≤ k) ∧
    (p.k = [] → (Query.parse p h).count = [1]) ∧
    (p.cap = [] → (Query.parse p h).transport = ["udp"]) ∧
    (p.ipv4 = none → (Query.parse p h).ipv4 = true) ∧
    (p.ipv6 = none → (Query.parse p h).ipv6 = (h.ip.getD "").data.contains ':') ∧
    floatClause p.lon (-180) 180 h.longitude (Query.parse p h).lon ∧
    floatClause p.lat (-90) 90 h.latitude (Query.parse p h).lat := by
  refine ⟨⟨parse_count_ne_nil p h, parse_count_pos p h⟩, ?_, ?_, ?_, ?_, ?_, ?_⟩
  · intro hk
    have h1 : jsParseIntDec "1" = some 1 := by decide
    simp [Query.parse, hk, h1]
  · intro hc
    simp [Query.parse, hc]
  · intro h4
    simp [Query.parse, h4, parseBooleanParam]
  · intro h6
    simp [Query.parse, h6, parseBooleanParam]
  · exact floatClause_parseFloatParam p.lon (-180) 180 h.longitude
  · exact floatClause_parseFloatParam p.lat (-90) 90 h.latitude

/-- Witness for claim C5 at the all-defaults request. -/
theorem parse_never_fails_bounds_witness :
    (pEmpty.k = []) ∧
      (Query.parse pEmpty hints0).count = [1] ∧
      (Query.parse pEmpty hints0).transport = ["udp"] ∧
      (Query.parse pEmpty hints0).ipv4 = true ∧
      (Query.parse pEmpty hints0).ipv6 = false ∧
      floatClause pEmpty.lon (-180) 180 hints0.longitude (Query.parse pEmpty hints0).lon :=
  ⟨rfl,
    (parse_never_fails_bounds pEmpty hints0).2.1 rfl,
    (parse_never_fails_bounds pEmpty hints0).2.2.1 rfl,
    (parse_never_fails_bounds pEmpty hints0).2.2.2.1 rfl,
    by rw [(parse_never_fails_bounds pEmpty hints0).2.2.2.2.1 rfl]; decide,
    (parse_never_fails_bounds pEmpty hints0).2.2.2.2.2.1⟩

/-! ### Claim C7 -/

/-- One step of the directory parsing loop agrees with the claim's
per-entry rule. -/
theorem fetchTestbedNodes_cons (urlHost : String → Option String)
    (o : RawEntry) (rest : List RawEntry) :
    fetchTestbedNodes urlHost (o :: rest) =
      (match parseEntryClaim urlHost o with
       | some r => r :: fetchTestbedNodes urlHost rest
       | none => fetchTestbedNodes urlHost rest) := by
  rcases o with ⟨sn, rp, posf, site, fe, wt⟩
  rcases rp with _ | p
  · rcases posf with _ | p
    · rfl
    · simp only [fetchTestbedNodes, parseEntryClaim, Option.none_orElse]
      rcases p with _ | ⟨a, _ | ⟨b, _ | ⟨c, t⟩⟩⟩
      · rfl
      · simp
      · cases hu : urlHost site with
        | none => simp [hu]
        | some host =>
          by_cases hh : host = "" ∨ host = "0.0.0.0"
          · have hh' : ¬(host ≠ "" ∧ host ≠ "0.0.0.0") := by tauto
            simp [hu, hh, hh']
          · have hh' : host ≠ "" ∧ host ≠ "0.0.0.0" := by tauto
            simp [hu, hh, hh', List.getD]
      · simp
  · simp only [fetchTestbedNodes, parseEntryClaim, Option.some_orElse]
    rcases p with _ | ⟨a, _ | ⟨b, _ | ⟨c, t⟩⟩⟩
    · rfl
    · simp
    · cases hu : urlHost site with
      | none => simp [hu]
      | some host =>
        by_cases hh : host = "" ∨ host = "0.0.0.0"
        · have hh' : ¬(host ≠ "" ∧ host ≠ "0.0.0.0") := by tauto
          simp [hu, hh, hh']
        · have hh' : host ≠ "" ∧ host ≠ "0.0.0.0" := by tauto
          simp [hu, hh, hh', List.getD]
    · simp

/-- Claim C7: directory parsing keeps exactly the entries whose preferred
position is a two-element pair and whose site yields a usable host; a kept
entry's stored (lat, lon) is swapped to (lon, lat) with no range check
(witnessed by the out-of-range entry `[200, 50]`), udp is the enabled flag
and wss is the enabled flag AND the TLS flag. -/
theorem fetchTestbedNodes_spec (urlHost : String → Option String)
    (entries : List RawEntry) :
    fetchTestbedNodes urlHost entries = entries.filterMap (parseEntryClaim urlHost) ∧
    fetchTestbedNodes hostX [entry200] =
      [{ id := "n", position := (50, 200), host := "x.example",
         udp := true, wss := false }] := by
  constructor
  · induction entries with
    | nil => rfl
    | cons o rest ih =>
      rw [List.filterMap_cons, fetchTestbedNodes_cons, ih]
      cases parseEntryClaim urlHost o <;> rfl
  · decide

/-! ### Claim C6 -/

/-- `Number.parseFloat` recovers the value 7 from the string "7". -/
theorem jsParseFloat_seven : jsParseFloat "7" = some 7 := by
  have h1 : splitSign (trimLeftChars "7".data) = (false, ['7']) := by decide
  have h2 : (['7'] : List Char).takeWhile Char.isDigit = ['7'] := by decide
  have h3 : digitsToNat ['7'] = 7 := by decide
  have h4 : digitsToNat [] = 0 := rfl
  simp only [jsParseFloat, h1, h2, h3, h4]
  norm_num
  decide

/-- Counterexample to claim C6 as stated: a query parsed from an explicitly
empty `network` parameter has `network = some ""`, which serialization drops
(JS truthiness), so re-parsing the emitted parameters yields `network = none`
and the round trip is not the identity. -/
theorem toSearchParams_roundtrip_cex :
    Query.parse
        (Query.toSearchParams intToStr0 numToStr0 (Query.parse pNetEmpty hints0))
        hints0 ≠
      Query.parse pNetEmpty hints0 := by
  intro heq
  have h2 := congrArg Query.network heq
  simp [Query.parse, Query.toSearchParams, pNetEmpty] at h2

/-- Claim C6 (amended): serialization emits count and transport as repeated
k/cap parameters, the booleans as "1"/"0", the coordinates through JS number
formatting, and network only when set AND non-empty; re-parsing those
parameters under the same client hints reproduces the query exactly,
provided the abstract number formatters round-trip the query's values
(true of JS shortest-round-trip printing) and the query's network filter is
not the empty string. -/
theorem toSearchParams_parse_roundtrip (intToStr : Int → String)
    (numToStr : ℚ → String) (p : RawParams) (h : ClientHints)
    (hk : ∀ k ∈ (Query.parse p h).count, jsParseIntDec (intToStr k) = some k)
    (hlon : jsParseFloat (numToStr (Query.parse p h).lon) =
      some (Query.parse p h).lon)
    (hlat : jsParseFloat (numToStr (Query.parse p h).lat) =
      some (Query.parse p h).lat)
    (hnet : (Query.parse p h).network ≠ some "") :
    Query.parse (Query.toSearchParams intToStr numToStr (Query.parse p h)) h =
      Query.parse p h := by
  have hne : (Query.parse p h).count ≠ [] := parse_count_ne_nil p h
  have hpos : ∀ k ∈ (Query.parse p h).count, 1 ≤ k := parse_count_pos p h
  have htr : (Query.parse p h).transport ≠ [] := parse_transport_ne_nil p h
  have hlonc : (-180 ≤ (Query.parse p h).lon ∧ (Query.parse p h).lon ≤ 180) ∨
      (Query.parse p h).lon = h.longitude :=
    parseFloatParam_cases p.lon (-180) 180 h.longitude
  have hlatc : (-90 ≤ (Query.parse p h).lat ∧ (Query.parse p h).lat ≤ 90) ∨
      (Query.parse p h).lat = h.latitude :=
    parseFloatParam_cases p.lat (-90) 90 h.latitude
  generalize hqe : Query.parse p h = q at hk hlon hlat hnet hne hpos htr hlonc hlatc ⊢
  obtain ⟨cnt, tr, i4, i6, lo, la, nw⟩ := q
  simp only at hk hlon hlat hnet hne hpos htr hlonc hlatc
  have hmapne : (cnt.map intToStr).isEmpty = false :=
    List.isEmpty_eq_false.mpr (by simp [hne])
  have htrne : tr.isEmpty = false := List.isEmpty_eq_false.mpr htr
  simp only [Query.parse, Query.toSearchParams, hmapne, htrne, Bool.false_eq_true,
    if_false, Query.mk.injEq]
  refine ⟨?_, trivial, ?_, ?_, ?_, ?_, ?_⟩
  · rw [List.map_map]
    have : ∀ a ∈ cnt,
        ((fun ks =>
          match jsParseIntDec ks with
          | some n => max 1 n
          | none => 1) ∘ intToStr) a = id a := by
      intro a ha
      simp only [Function.comp_apply, hk a ha, id]
      exact max_eq_right (hpos a ha)
    rw [List.map_congr_left this, List.map_id]
  · cases i4 <;> rfl
  · cases i6 <;> rfl
  · have hb : (some (numToStr lo)).bind jsParseFloat = some lo := by
      rw [Option.some_bind, hlon]
    simp only [parseFloatParam, hb]
    rcases hlonc with hin | hdef
    · rw [if_pos hin]
    · by_cases hin2 : (-180 : ℚ) ≤ lo ∧ lo ≤ 180
      · rw [if_pos hin2]
      · rw [if_neg hin2]
        exact hdef.symm
  · have hb : (some (numToStr la)).bind jsParseFloat = some la := by
      rw [Option.some_bind, hlat]
    simp only [parseFloatParam, hb]
    rcases hlatc with hin | hdef
    · rw [if_pos hin]
    · by_cases hin2 : (-90 : ℚ) ≤ la ∧ la ≤ 90
      · rw [if_pos hin2]
      · rw [if_neg hin2]
        exact hdef.symm
  · cases hnw : nw with
    | none => rfl
    | some s =>
      have hs : s ≠ "" := by
        rw [hnw] at hnet
        intro hcon
        exact hnet (by rw [hcon])
      simp [hs]

/-- Witness for the amended claim C6: the all-defaults request at position
(7, 7) round-trips exactly. -/
theorem toSearchParams_parse_roundtrip_witness :
    (∀ k ∈ (Query.parse pEmpty hints7).count, jsParseIntDec (intToStr0 k) = some k) ∧
      jsParseFloat (numToStr7 (Query.parse pEmpty hints7).lon) =
        some (Query.parse pEmpty hints7).lon ∧
      (Query.parse pEmpty hints7).network ≠ some "" ∧
      Query.parse
          (Query.toSearchParams intToStr0 numToStr7 (Query.parse pEmpty hints7))
          hints7 =
        Query.parse pEmpty hints7 :=
  ⟨fun k hk => by
      have hc : (Query.parse pEmpty hints7).count = [1] := by decide
      rw [hc] at hk
      simp only [List.mem_singleton] at hk
      subst hk
      decide,
    jsParseFloat_seven,
    by decide,
    toSearchParams_parse_roundtrip intToStr0 numToStr7 pEmpty hints7
      (fun k hk => by
        have hc : (Query.parse pEmpty hints7).count = [1] := by decide
        rw [hc] at hk
        simp only [List.mem_singleton] at hk
        subst hk
        decide)
      jsParseFloat_seven
      jsParseFloat_seven
      (by decide)⟩

end NdnFch
